import Mathlib

/-!
Verification of the FixedFloat API client (src/index.js) against its
natural-language specification.

The client is a thin signed HTTP wrapper.  We shallowly embed the pure
parts of the code: request-body construction (including the lodash
`omitBy` filtering, `_splitCcy` parsing, `_calcAmtAndDir` derivation and
the argument-validation guards), the request-interceptor signing base
(URLSearchParams serialization fed to HMAC-SHA256), the transmitted body
(JSON serialization of the same data, per the axios defaults the spec
describes), and the response interceptor's envelope handling.  JavaScript
`undefined` for string-valued fields is modelled as `Option.none`;
throwing is modelled with `Except`.
-/

namespace FF

/-- JSON-ish JavaScript values, used for response envelopes and the
values the response interceptor reads off them.  `undefined` is the
JavaScript `undefined` produced by a missing property, distinct from
JSON `null`. -/
inductive JVal where
  | undefined : JVal
  | nullv : JVal
  | bool (b : Bool) : JVal
  | num (n : Int) : JVal
  | str (s : String) : JVal
  | obj (fields : List (String × JVal)) : JVal
  | arr (elems : List JVal) : JVal

/-- Errors thrown by the client.  The JS code throws plain `Error`s;
the constructors record the throw sites: `invalidCredentials` at
construction, `invalidArgument` in the `getPrice` and `createOrder`
guards, and `apiError` in the response interceptor.  `apiError` carries
the two values interpolated into the thrown message (the `code` and
`msg` the interceptor read), as JSON-ish values since in JS they may be
`undefined`.  `typeError` models the TypeError JS raises when the
interceptor destructures a missing `resp.data.data`. -/
inductive FFError where
  | invalidCredentials : FFError
  | invalidArgument : FFError
  | apiError (code : JVal) (msg : JVal) : FFError
  | typeError : FFError

/-- JavaScript truthiness of an optional string value (`undefined` and
the empty string are falsy, every other string is truthy).  This is also
exactly `!_.isEmpty(v)` for lodash on an optional string. -/
def truthyOpt (v : Option String) : Bool :=
  match v with
  | none => false
  | some s => s ≠ ""

/-- JS `String.prototype.split(" ")` on the character list: split into
groups at every space, keeping empty groups, as JavaScript does
(for example `"a  b"` gives `["a", "", "b"]` and `"a "` gives
`["a", ""]`). -/
def splitSp : List Char → List (List Char)
  | [] => [[]]
  | c :: cs =>
    if c = ' ' then [] :: splitSp cs
    else
      match splitSp cs with
      | [] => [[c]]
      | g :: gs => (c :: g) :: gs

/-- JS `s.indexOf(" ")`: index of the first space, `-1` if none.
Used by the validation guard of `getPrice` and `createOrder`. -/
def jsIndexOfSpace (s : String) : Int :=
  match s.data.findIdx? (· = ' ') with
  | some i => (i : Int)
  | none => -1

/-- Result of `_splitCcy`: the JS object has a `ccy` property and an
optionally present `amount` property. -/
structure SplitCcy where
  amount : Option String
  ccy : String
deriving DecidableEq, Repr

/-- `FixedFloat._splitCcy` from src/index.js: if the string contains no
space return it whole as the currency code with no amount; otherwise
`_.split(ccyData, " ", 2)` and destructure into `[amount, ccy]`, i.e.
the first two space-separated groups. -/
def splitCcy (ccyData : String) : SplitCcy :=
  if ' ' ∈ ccyData.data then
    let parts := splitSp ccyData.data
    { amount := some (String.mk (parts.headD []))
      ccy := String.mk ((parts.drop 1).headD []) }
  else
    { amount := none, ccy := ccyData }

/-- Result of `_calcAmtAndDir`: the JS object may carry `amount` and
`direction` properties, or be empty. -/
structure AmtDir where
  amount : Option String
  direction : Option String
deriving DecidableEq, Repr

/-- `FixedFloat._calcAmtAndDir` from src/index.js: if the from-side
amount is lodash-nonempty use it with direction `from`; else if the
to-side amount is lodash-nonempty use it with direction `to`; else
return the empty object. -/
def calcAmtAndDir (fromAmt toAmt : Option String) : AmtDir :=
  if truthyOpt fromAmt then { amount := fromAmt, direction := some "from" }
  else if truthyOpt toAmt then { amount := toAmt, direction := some "to" }
  else { amount := none, direction := none }

/-- lodash `_.omitBy(obj, _.identity)` (also `_.omitBy(obj)`, whose
default predicate is `_.identity`) on a string-valued object.
`_.omitBy` is the opposite of `_.pickBy`: it removes every property for
which the predicate returns truthy, so with the identity predicate it
drops the truthy-valued properties and keeps exactly those whose value
is falsy (`undefined` or the empty string). -/
def omitByIdentity (fields : List (String × Option String)) :
    List (String × Option String) :=
  fields.filter (fun kv => !truthyOpt kv.2)

/-- The affiliate argument of the constructor: an object with `refcode`
and `afftax` properties, either of which may be `undefined`. -/
structure Affiliate where
  refcode : Option String
  afftax : Option String
deriving DecidableEq, Repr

/-- The client state after construction: the credentials and the
affiliate fields (`undefined` when no affiliate object was given). -/
structure Client where
  apiKey : String
  secretKey : String
  refcode : Option String
  afftax : Option String
deriving DecidableEq, Repr

/-- The `FixedFloat` constructor: throws when the API key or the secret
key is falsy (missing or empty), otherwise stores the credentials and,
when an affiliate object is supplied, its `refcode` and `afftax`. -/
def mkClient (apiKey secretKey : String) (affiliate : Option Affiliate) :
    Except FFError Client :=
  if apiKey = "" ∨ secretKey = "" then
    .error .invalidCredentials
  else
    .ok { apiKey := apiKey
          secretKey := secretKey
          refcode := match affiliate with | none => none | some a => a.refcode
          afftax := match affiliate with | none => none | some a => a.afftax }

/-- The shared validation guard of `getPrice` and `createOrder`:
`!from || !to || from.indexOf(" ") + to.indexOf(" ") === -2`. -/
def priceGuardFails (fromStr toStr : String) : Bool :=
  fromStr = "" ∨ toStr = "" ∨ jsIndexOfSpace fromStr + jsIndexOfSpace toStr = -2

/-- `FixedFloat.getPrice` up to the network call: validate, parse both
sides, derive amount and direction, and build the reduced request body
(the object literal in source order, filtered by `_.omitBy`).  Returns
the body that would be posted to `/price`. -/
def getPriceBody (c : Client) (fromStr toStr : String)
    (type : String := "float") :
    Except FFError (List (String × Option String)) :=
  if priceGuardFails fromStr toStr then
    .error .invalidArgument
  else
    let f := splitCcy fromStr
    let t := splitCcy toStr
    let ad := calcAmtAndDir f.amount t.amount
    .ok (omitByIdentity
      [("type", some type),
       ("fromCcy", some f.ccy), ("toCcy", some t.ccy),
       ("amount", ad.amount), ("direction", ad.direction),
       ("refcode", c.refcode), ("afftax", c.afftax)])

/-- `FixedFloat.createOrder` up to the network call: the same guard and
derivation as `getPrice`, with the body the source builds (note the
source never includes `toAddress` in the body; `tag` may be
`undefined`).  Returns the body that would be posted to `/create`. -/
def createOrderBody (c : Client) (fromStr toStr : String)
    (toAddress : String) (type : String := "float")
    (tag : Option String := none) :
    Except FFError (List (String × Option String)) :=
  if priceGuardFails fromStr toStr then
    .error .invalidArgument
  else
    let f := splitCcy fromStr
    let t := splitCcy toStr
    let ad := calcAmtAndDir f.amount t.amount
    let _ := toAddress
    .ok (omitByIdentity
      [("type", some type), ("tag", tag),
       ("fromCcy", some f.ccy), ("toCcy", some t.ccy),
       ("amount", ad.amount), ("direction", ad.direction),
       ("refcode", c.refcode), ("afftax", c.afftax)])

/-- `FixedFloat.getOrder` body: the object literal with `id` and `token`,
transmitted with no filtering step. -/
def getOrderBody (id token : String) : List (String × Option String) :=
  [("id", some id), ("token", some token)]

/-- `FixedFloat.setEmergency` body: the object literal with `id`,
`token`, `choice` and `address` (the last may be `undefined`),
transmitted with no filtering step. -/
def setEmergencyBody (id token choice : String) (address : Option String) :
    List (String × Option String) :=
  [("id", some id), ("token", some token),
   ("choice", some choice), ("address", address)]

/-! ### Serialization: URLSearchParams and JSON -/

/-- UTF-8 encoding of a single character, as byte values. -/
def utf8EncodeChar (c : Char) : List Nat :=
  let n := c.toNat
  if n < 128 then [n]
  else if n < 2048 then [192 + n / 64, 128 + n % 64]
  else if n < 65536 then [224 + n / 4096, 128 + n / 64 % 64, 128 + n % 64]
  else [240 + n / 262144, 128 + n / 4096 % 64, 128 + n / 64 % 64, 128 + n % 64]

/-- UTF-8 encoding of a string, as byte values. -/
def utf8Encode (s : String) : List Nat :=
  s.data.flatMap utf8EncodeChar

def hexDigitLower (n : Nat) : Char :=
  "0123456789abcdef".data.getD n '0'

def hexDigitUpper (n : Nat) : Char :=
  "0123456789ABCDEF".data.getD n '0'

/-- Characters the `application/x-www-form-urlencoded` serializer leaves
unescaped: ASCII alphanumerics and `*`, `-`, `.`, `_`. -/
def formUnreserved (c : Char) : Bool :=
  ('a' ≤ c && c ≤ 'z') || ('A' ≤ c && c ≤ 'Z') ||
  ('0' ≤ c && c ≤ '9') || c = '*' || c = '-' || c = '.' || c = '_'

def percentEncodeByte (b : Nat) : List Char :=
  ['%', hexDigitUpper (b / 16), hexDigitUpper (b % 16)]

/-- One character under the urlencoded serializer: space becomes `+`,
unreserved characters stay, everything else is percent-encoded byte by
byte over its UTF-8 encoding. -/
def formEncodeChar (c : Char) : List Char :=
  if c = ' ' then ['+']
  else if formUnreserved c then [c]
  else (utf8EncodeChar c).flatMap percentEncodeByte

def formEncode (s : String) : String :=
  String.mk (s.data.flatMap formEncodeChar)

/-- JS coercion of a field value to a string as `URLSearchParams` does:
`undefined` stringifies to the text `undefined`. -/
def jsStringOfOpt : Option String → String
  | none => "undefined"
  | some s => s

/-- `new URLSearchParams(obj).toString()`: each property rendered as
`key=value` with both sides urlencoded, joined by `&`. -/
def urlSearchParamsToString (fields : List (String × Option String)) : String :=
  String.intercalate "&"
    (fields.map (fun kv => formEncode kv.1 ++ "=" ++ formEncode (jsStringOfOpt kv.2)))

/-- JSON string escaping as `JSON.stringify` performs it. -/
def jsonEscapeChar (c : Char) : List Char :=
  if c = '"' then ['\\', '"']
  else if c = '\\' then ['\\', '\\']
  else if c.toNat = 8 then ['\\', 'b']
  else if c.toNat = 9 then ['\\', 't']
  else if c.toNat = 10 then ['\\', 'n']
  else if c.toNat = 12 then ['\\', 'f']
  else if c.toNat = 13 then ['\\', 'r']
  else if c.toNat < 32 then
    ['\\', 'u', '0', '0', hexDigitLower (c.toNat / 16), hexDigitLower (c.toNat % 16)]
  else [c]

def jsonQuote (s : String) : String :=
  "\"" ++ String.mk (s.data.flatMap jsonEscapeChar) ++ "\""

/-- `JSON.stringify` of a string-valued object: properties with value
`undefined` are skipped, the rest rendered as quoted pairs inside
braces. -/
def jsonStringifyObj (fields : List (String × Option String)) : String :=
  "\x7b" ++
    String.intercalate ","
      (fields.filterMap (fun kv =>
        kv.2.map (fun v => jsonQuote kv.1 ++ ":" ++ jsonQuote v))) ++
  "\x7d"

/-! ### HMAC-SHA256 (the `crypto.createHmac` call of the request
interceptor), implemented over byte lists with `Nat` arithmetic. -/

def w32 (x : Nat) : Nat := x % 4294967296

/-- Right rotation of a 32-bit word (exact for `x < 2 ^ 32`). -/
def rotr32 (n x : Nat) : Nat := x / 2 ^ n + x % 2 ^ n * 2 ^ (32 - n)

def sha256K : List Nat :=
  [1116352408, 1899447441, 3049323471, 3921009573,
   961987163, 1508970993, 2453635748, 2870763221,
   3624381080, 310598401, 607225278, 1426881987,
   1925078388, 2162078206, 2614888103, 3248222580,
   3835390401, 4022224774, 264347078, 604807628,
   770255983, 1249150122, 1555081692, 1996064986,
   2554220882, 2821834349, 2952996808, 3210313671,
   3336571891, 3584528711, 113926993, 338241895,
   666307205, 773529912, 1294757372, 1396182291,
   1695183700, 1986661051, 2177026350, 2456956037,
   2730485921, 2820302411, 3259730800, 3345764771,
   3516065817, 3600352804, 4094571909, 275423344,
   430227734, 506948616, 659060556, 883997877,
   958139571, 1322822218, 1537002063, 1747873779,
   1955562222, 2024104815, 2227730452, 2361852424,
   2428436474, 2756734187, 3204031479, 3329325298]

def sha256InitH : List Nat :=
  [1779033703, 3144134277, 1013904242, 2773480762,
   1359893119, 2600822924, 528734635, 1541459225]

/-- Big-endian 32-bit words from a byte list. -/
def bytesToWords : List Nat → List Nat
  | b0 :: b1 :: b2 :: b3 :: rest =>
    (((b0 * 256 + b1) * 256 + b2) * 256 + b3) :: bytesToWords rest
  | _ => []

/-- Split a byte list into 64-byte blocks. -/
def chunks64 : List Nat → List (List Nat)
  | [] => []
  | b :: bs => ((b :: bs).take 64) :: chunks64 (bs.drop 63)
termination_by l => l.length
decreasing_by simp [List.length_drop]; omega

def smallSigma0 (x : Nat) : Nat := rotr32 7 x ^^^ rotr32 18 x ^^^ x / 2 ^ 3

def smallSigma1 (x : Nat) : Nat := rotr32 17 x ^^^ rotr32 19 x ^^^ x / 2 ^ 10

def bigSigma0 (x : Nat) : Nat := rotr32 2 x ^^^ rotr32 13 x ^^^ rotr32 22 x

def bigSigma1 (x : Nat) : Nat := rotr32 6 x ^^^ rotr32 11 x ^^^ rotr32 25 x

def chF (x y z : Nat) : Nat := x &&& y ^^^ ((x ^^^ 4294967295) &&& z)

def majF (x y z : Nat) : Nat := x &&& y ^^^ x &&& z ^^^ y &&& z

/-- Extend the 16 message words of a block to the 64-entry schedule. -/
def sha256Schedule (ws : List Nat) : Array Nat :=
  (List.range 48).foldl
    (fun w j =>
      let i := j + 16
      w.push (w32 (smallSigma1 (w.getD (i - 2) 0) + w.getD (i - 7) 0 +
                   smallSigma0 (w.getD (i - 15) 0) + w.getD (i - 16) 0)))
    ws.toArray

def sha256Round (wi ki : Nat)
    (st : Nat × Nat × Nat × Nat × Nat × Nat × Nat × Nat) :
    Nat × Nat × Nat × Nat × Nat × Nat × Nat × Nat :=
  let (a, b, c, d, e, f, g, h) := st
  let t1 := w32 (h + bigSigma1 e + chF e f g + ki + wi)
  let t2 := w32 (bigSigma0 a + majF a b c)
  (w32 (t1 + t2), a, b, c, w32 (d + t1), e, f, g)

/-- One SHA-256 compression step over a 64-byte block. -/
def sha256Compress (hs : List Nat) (block : List Nat) : List Nat :=
  match hs with
  | [h0, h1, h2, h3, h4, h5, h6, h7] =>
    let w := sha256Schedule (bytesToWords block)
    let k := sha256K.toArray
    let fin := (List.range 64).foldl
      (fun st i => sha256Round (w.getD i 0) (k.getD i 0) st)
      (h0, h1, h2, h3, h4, h5, h6, h7)
    let (a, b, c, d, e, f, g, h) := fin
    [w32 (h0 + a), w32 (h1 + b), w32 (h2 + c), w32 (h3 + d),
     w32 (h4 + e), w32 (h5 + f), w32 (h6 + g), w32 (h7 + h)]
  | _ => hs

/-- Number of zero bytes of padding for a message of `len` bytes. -/
def sha256PadZeros (len : Nat) : Nat := (119 - len % 64) % 64

/-- SHA-256 of a byte list, as a 32-entry byte list. -/
def sha256 (msg : List Nat) : List Nat :=
  let padded := msg ++ 128 :: List.replicate (sha256PadZeros msg.length) 0 ++
    (List.range 8).map (fun i => 8 * msg.length / 2 ^ (8 * (7 - i)) % 256)
  let hs := (chunks64 padded).foldl sha256Compress sha256InitH
  hs.flatMap (fun w => [w / 16777216 % 256, w / 65536 % 256, w / 256 % 256, w % 256])

def hexOfBytes (bs : List Nat) : String :=
  String.mk (bs.flatMap (fun b => [hexDigitLower (b / 16), hexDigitLower (b % 16)]))

/-- `crypto.createHmac("sha256", key).update(msg).digest("hex")`:
HMAC-SHA256 with a 64-byte block, lowercase hex output. -/
def hmacSha256Hex (key msg : String) : String :=
  let kb := utf8Encode key
  let k0 := if 64 < kb.length then sha256 kb else kb
  let kp := k0 ++ List.replicate (64 - k0.length) 0
  let inner := sha256 (kp.map (fun b => b ^^^ 54) ++ utf8Encode msg)
  hexOfBytes (sha256 (kp.map (fun b => b ^^^ 92) ++ inner))

/-! ### The request interceptor: signing base, signature, and the
transmitted body. -/

/-- lodash `_.isEmpty(config.data)`: true when no body object was given
or the object has no properties. -/
def lodashIsEmptyData : Option (List (String × Option String)) → Bool
  | none => true
  | some fs => fs.isEmpty

/-- The signing base of the request interceptor: the empty string for an
empty body, else `new URLSearchParams(config.data).toString()`. -/
def requestSigningBase (data : Option (List (String × Option String))) : String :=
  if lodashIsEmptyData data then "" else urlSearchParamsToString (data.getD [])

/-- The `X-API-SIGN` header value the interceptor computes: HMAC-SHA256
of the signing base under the secret key, in lowercase hex. -/
def computeSignature (secretKey : String)
    (data : Option (List (String × Option String))) : String :=
  hmacSha256Hex secretKey (requestSigningBase data)

/-- Modelled from the spec: the byte sequence the HTTP layer transmits
as the request body.  The transport itself (axios) is not part of the
repository; per the spec, requests carry content type
`application/json; charset=UTF-8` and the body is the JSON object of
the request fields, which is axios's documented default serialization
of a plain-object `config.data` (and no body at all when `config.data`
is absent). -/
def requestTransmittedBody (data : Option (List (String × Option String))) : String :=
  match data with
  | none => ""
  | some fs => jsonStringifyObj fs

/-! ### The response interceptor -/

/-- JS property access with the safety of `_.get`: looking a key up on
an object yields its value, on anything else `undefined`. -/
def jvGet (v : JVal) (k : String) : JVal :=
  match v with
  | .obj fs =>
    match fs.find? (fun kv => kv.1 = k) with
    | some kv => kv.2
    | none => .undefined
  | _ => .undefined

/-- Strict equality against the number literal `0`, as in the
interceptor's `code !== 0` test. -/
def jvIsNumZero : JVal → Bool
  | .num n => n = 0
  | _ => false

/-- Strict equality against the string literal `OK`, as in the
interceptor's `msg !== "OK"` test. -/
def jvIsStrOK : JVal → Bool
  | .str s => s = "OK"
  | _ => false

/-- lodash `_.isEmpty` over a JSON-ish value: `undefined`, `null`,
booleans and numbers are empty; strings, objects and arrays are empty
when they have no elements. -/
def jvIsEmpty : JVal → Bool
  | .undefined => true
  | .nullv => true
  | .bool _ => true
  | .num _ => true
  | .str s => s.isEmpty
  | .obj fs => fs.isEmpty
  | .arr xs => xs.isEmpty

/-- The human-readable order states array `STATES` of src/index.js. -/
def STATES : List String :=
  ["Transaction expected",
   "The transaction is waiting for the required number of confirmations",
   "Currency exchange",
   "Sending funds",
   "Completed",
   "Expired",
   "Not currently in use",
   "A decision must be made to proceed with the order"]

/-- JS array indexing `STATES[status]` for the values that reach it: the
property key is the canonical decimal numeral of an index into the
array, anything else reads as `undefined`. -/
def statesLookup : JVal → JVal
  | .str s =>
    match s.toNat? with
    | some n => if toString n = s then
        match STATES.get? n with
        | some t => .str t
        | none => .undefined
      else .undefined
    | none => .undefined
  | _ => .undefined

/-- Set a property on an object value, replacing an existing key in
place or appending, as `_.set` does on a plain object. -/
def jvSetField (v : JVal) (k : String) (newVal : JVal) : JVal :=
  match v with
  | .obj fs =>
    if fs.any (fun kv => kv.1 = k) then
      .obj (fs.map (fun kv => if kv.1 = k then (k, newVal) else kv))
    else
      .obj (fs ++ [(k, newVal)])
  | _ => v

/-- The response interceptor of src/index.js applied to the parsed HTTP
response body (`resp.data`): it reads `resp.data.data` — the field named
`data` of the body — destructures `status`, `msg` and `code` from that
inner value, throws when `code !== 0 || msg !== "OK"` with those two
values interpolated into the message, optionally annotates the inner
value with `statusText`, and otherwise passes the response through.
The success value is the (possibly annotated) response body, since every
API method then returns `resp.data`.  Destructuring `undefined` or
`null` in JS throws a TypeError before the envelope check runs;
that case is modelled with the dedicated `typeError` constructor. -/
def responseInterceptor (body : JVal) : Except FFError JVal :=
  let data := jvGet body "data"
  match data with
  | .undefined => .error .typeError
  | .nullv => .error .typeError
  | _ =>
    let status := jvGet data "status"
    let msg := jvGet data "msg"
    let code := jvGet data "code"
    if !jvIsNumZero code || !jvIsStrOK msg then
      .error (.apiError code msg)
    else if !jvIsEmpty status then
      .ok (jvSetField body "data" (jvSetField data "statusText" (statesLookup status)))
    else
      .ok body

/-- What an API method hands back to its caller for a given HTTP
response body: every method runs the response through the interceptor
and then returns `resp.data` — the whole (possibly annotated) response
body object, i.e. the envelope itself. -/
def methodResult (body : JVal) : Except FFError JVal :=
  responseInterceptor body

/-- A demonstration client with valid credentials and no affiliate,
used to instantiate theorems at concrete inputs. -/
def demoClient : Client :=
  { apiKey := "demo-api-key", secretKey := "demo-secret-key",
    refcode := none, afftax := none }

/-! ### Helper lemmas -/

theorem splitSp_ne_nil (l : List Char) : splitSp l ≠ [] := by
  cases l with
  | nil => simp [splitSp]
  | cons c cs =>
    simp only [splitSp]
    split
    · simp
    · cases h : splitSp cs <;> simp

theorem splitSp_head_takeWhile (l : List Char) :
    (splitSp l).headD [] = l.takeWhile (fun c => c ≠ ' ') := by
  induction l with
  | nil => rfl
  | cons c cs ih =>
    by_cases hc : c = ' '
    · subst hc; simp [splitSp, List.takeWhile_cons]
    · simp only [splitSp, if_neg hc]
      cases h : splitSp cs with
      | nil => exact absurd h (splitSp_ne_nil cs)
      | cons g gs =>
        rw [h] at ih
        simp only [List.headD_cons] at ih
        simp [List.takeWhile_cons, hc, ih]

theorem splitSp_append_space (l r : List Char) (hl : ' ' ∉ l) :
    splitSp (l ++ ' ' :: r) = l :: splitSp r := by
  induction l with
  | nil => simp [splitSp]
  | cons c cs ih =>
    have hc : ¬ c = ' ' := fun h => hl (h ▸ List.mem_cons_self c cs)
    have hcs : ' ' ∉ cs := fun h => hl (List.mem_cons_of_mem _ h)
    simp only [List.cons_append, splitSp, if_neg hc]
    show (match splitSp (cs ++ ' ' :: r) with
          | [] => [[c]]
          | g :: gs => (c :: g) :: gs) = (c :: cs) :: splitSp r
    rw [ih hcs]

theorem jsIndexOfSpace_of_no_space (s : String) (h : ' ' ∉ s.data) :
    jsIndexOfSpace s = -1 := by
  unfold jsIndexOfSpace
  rw [List.findIdx?_eq_none_iff.mpr]
  intro x hx
  simp only [decide_eq_false_iff_not]
  exact fun hxs => h (hxs ▸ hx)

theorem jsIndexOfSpace_nonneg (s : String) (h : ' ' ∈ s.data) :
    0 ≤ jsIndexOfSpace s := by
  unfold jsIndexOfSpace
  cases hf : s.data.findIdx? (· = ' ') with
  | some i => simp
  | none =>
    have := List.findIdx?_eq_none_iff.mp hf ' ' h
    simp at this

theorem string_ne_empty_of_mem_data (s : String) (c : Char) (h : c ∈ s.data) :
    s ≠ "" := by
  intro hs
  subst hs
  simp at h

/-- The guard of `getPrice`/`createOrder` fires when neither input
contains a space. -/
theorem priceGuardFails_of_no_space (f t : String)
    (hf : ' ' ∉ f.data) (ht : ' ' ∉ t.data) :
    priceGuardFails f t = true := by
  simp only [priceGuardFails, jsIndexOfSpace_of_no_space f hf,
    jsIndexOfSpace_of_no_space t ht, decide_eq_true_eq]
  right; right; norm_num

/-- The guard of `getPrice`/`createOrder` does not fire when both inputs
contain a space. -/
theorem priceGuardFails_false_of_spaces (f t : String)
    (hf : ' ' ∈ f.data) (ht : ' ' ∈ t.data) :
    priceGuardFails f t = false := by
  have h1 := jsIndexOfSpace_nonneg f hf
  have h2 := jsIndexOfSpace_nonneg t ht
  simp only [priceGuardFails, decide_eq_false_iff_not]
  push_neg
  exact ⟨string_ne_empty_of_mem_data f ' ' hf,
         string_ne_empty_of_mem_data t ' ' ht, by omega⟩

/-- `_splitCcy` on a string containing no space keeps the whole string
as the currency code with no amount. -/
theorem splitCcy_no_space (s : String) (h : ' ' ∉ s.data) :
    splitCcy s = { amount := none, ccy := s } := by
  unfold splitCcy
  rw [if_neg h]

/-- `_splitCcy` on `a ++ " " ++ b` with `a` space-free: the amount is
`a` and the code is the part of `b` up to its first space (the second
group of the limit-2 split). -/
theorem splitCcy_append (a b : String) (ha : ' ' ∉ a.data) :
    splitCcy (a ++ " " ++ b) =
      { amount := some a
        ccy := String.mk (b.data.takeWhile (fun c => c ≠ ' ')) } := by
  have hdata : (a ++ " " ++ b).data = a.data ++ ' ' :: b.data := by
    rw [String.data_append, String.data_append,
      show (" " : String).data = [' '] from rfl, List.append_assoc]
    rfl
  have hmem : ' ' ∈ (a ++ " " ++ b).data := by
    rw [hdata]; simp
  unfold splitCcy
  rw [if_pos hmem, hdata, splitSp_append_space _ _ ha]
  show ({ amount := some (String.mk ((a.data :: splitSp b.data).headD []))
          ccy := String.mk (((a.data :: splitSp b.data).drop 1).headD []) } : SplitCcy) = _
  rw [List.headD_cons, List.drop_succ_cons, List.drop_zero, splitSp_head_takeWhile]

/-- Looking a key up in an `omitBy`-reduced body skips a leading field
with a different key, whether or not that field survives the filter. -/
theorem omitBy_find?_cons_skip (k k' : String) (v : Option String)
    (l : List (String × Option String)) (hne : k' ≠ k) :
    ((omitByIdentity ((k', v) :: l)).find? (fun kv => kv.1 = k)) =
      ((omitByIdentity l).find? (fun kv => kv.1 = k)) := by
  unfold omitByIdentity
  rw [List.filter_cons]
  split
  · simp [List.find?_cons, hne]
  · rfl

/-- `_.omitBy` with the identity predicate removes a leading field whose
value is truthy. -/
theorem omitBy_cons_drop (k : String) (v : Option String)
    (l : List (String × Option String)) (hv : truthyOpt v = true) :
    omitByIdentity ((k, v) :: l) = omitByIdentity l := by
  unfold omitByIdentity
  rw [List.filter_cons]
  simp [hv]

/-! ### Claim theorems -/

/-- C1: the claim states that the byte sequence over which the
HMAC-SHA256 signature is computed is exactly the byte sequence
transmitted as the HTTP request body.  The code violates this: the
interceptor signs `new URLSearchParams(config.data).toString()` while
the transport sends the JSON serialization of the same object.  At the
body of `getOrder("o1", "tk")` the signature is computed (by
definition) over the signing base, the signing base is the
form-urlencoded string, and it differs from the transmitted JSON
bytes. -/
theorem claim_C1_signing_base_mismatch :
    computeSignature "demo-secret-key" (some (getOrderBody "o1" "tk")) =
      hmacSha256Hex "demo-secret-key"
        (requestSigningBase (some (getOrderBody "o1" "tk"))) ∧
    requestSigningBase (some (getOrderBody "o1" "tk")) = "id=o1&token=tk" ∧
    requestSigningBase (some (getOrderBody "o1" "tk")) ≠
      requestTransmittedBody (some (getOrderBody "o1" "tk")) :=
  ⟨rfl, by decide, by decide⟩

/-- C2: the claim states that a response envelope with code 0, msg OK
and inner object D makes the call succeed and return D.  The code
violates this: the interceptor destructures `status`, `msg` and `code`
from `resp.data.data` — the inner object D — rather than from the
envelope, so for the success envelope whose D is a plain payload the
read `code` is `undefined`, the check fails and the call throws
(message `Error undefined: undefined`). -/
theorem claim_C2_ok_envelope_throws :
    methodResult (JVal.obj
      [("code", JVal.num 0), ("msg", JVal.str "OK"),
       ("data", JVal.obj [("hello", JVal.str "world")])]) =
      .error (.apiError JVal.undefined JVal.undefined) := rfl

/-- C3: the claim states that an envelope with code 1 and msg
`Invalid signature` makes the call fail with an error carrying that
code and msg.  The code does fail, but — reading `code` and `msg` from
the inner `data` object (here the empty object) instead of the
envelope — the thrown error carries `undefined` for both, not the
envelope's code 1 and msg. -/
theorem claim_C3_error_envelope_wrong_payload :
    methodResult (JVal.obj
      [("code", JVal.num 1), ("msg", JVal.str "Invalid signature"),
       ("data", JVal.obj [])]) =
      .error (.apiError JVal.undefined JVal.undefined) ∧
    methodResult (JVal.obj
      [("code", JVal.num 1), ("msg", JVal.str "Invalid signature"),
       ("data", JVal.obj [])]) ≠
      .error (.apiError (JVal.num 1) (JVal.str "Invalid signature")) := by
  refine ⟨rfl, fun h => ?_⟩
  rw [show methodResult (JVal.obj
      [("code", JVal.num 1), ("msg", JVal.str "Invalid signature"),
       ("data", JVal.obj [])]) =
      Except.error (FFError.apiError JVal.undefined JVal.undefined) from rfl] at h
  injection h with h1
  injection h1 with h2 h3
  exact JVal.noConfusion h2

/-- C4: when neither input string contains a space (so neither side
carries an amount), `getPrice` and `createOrder` throw the
invalid-argument error before any request body is produced, hence
before any network call. -/
theorem claim_C4_no_amount_rejected (c : Client) (f t ty ta : String)
    (tag : Option String) (hf : ' ' ∉ f.data) (ht : ' ' ∉ t.data) :
    getPriceBody c f t ty = .error .invalidArgument ∧
    createOrderBody c f t ta ty tag = .error .invalidArgument := by
  have hg := priceGuardFails_of_no_space f t hf ht
  constructor
  · unfold getPriceBody
    rw [hg]
    rfl
  · unfold createOrderBody
    rw [hg]
    rfl

/-- Witness for C4 at the spec's own example `getPriceQuote("ETH",
"BTC")` (and the analogous `createOrder` call). -/
theorem claim_C4_witness :
    (' ' ∉ "ETH".data) ∧ (' ' ∉ "BTC".data) ∧
    getPriceBody demoClient "ETH" "BTC" "float" = .error .invalidArgument ∧
    createOrderBody demoClient "ETH" "BTC" "destAddr" "float" none =
      .error .invalidArgument :=
  ⟨by decide, by decide,
   (claim_C4_no_amount_rejected demoClient "ETH" "BTC" "float" "destAddr" none
      (by decide) (by decide)).1,
   (claim_C4_no_amount_rejected demoClient "ETH" "BTC" "float" "destAddr" none
      (by decide) (by decide)).2⟩

/-- C5: the claim states that every operation removes empty, null or
undefined fields from the request body before serialization, so the
signed payload and the transmitted body carry the same reduced set of
non-empty fields.  The code does the opposite: `_.omitBy(obj,
_.identity)` removes the truthy fields and keeps the falsy ones, so
`getPrice("0.1 ETH", "BTC")` builds a body holding exactly the unset
`refcode` and `afftax`, whose signing base therefore reads
`refcode=undefined&afftax=undefined`; and `setEmergency` applies no
filtering at all, so an empty refund `address` stays in its body. -/
theorem claim_C5_empty_fields_kept :
    getPriceBody demoClient "0.1 ETH" "BTC" "float" =
      .ok [("refcode", none), ("afftax", none)] ∧
    requestSigningBase (some [("refcode", none), ("afftax", none)]) =
      "refcode=undefined&afftax=undefined" ∧
    ("address", some "") ∈ setEmergencyBody "ord1" "tok1" "REFUND" (some "") :=
  ⟨rfl, by decide, by decide⟩

/-- C6 counterexample: the claim says the code after the first space is
the whole rest of the string; the limit-2 split instead truncates at
the second space, so `"0.1 BTC extra"` parses with code `BTC`, not
`BTC extra`. -/
theorem claim_C6_counterexample :
    splitCcy "0.1 BTC extra" = { amount := some "0.1", ccy := "BTC" } ∧
    splitCcy "0.1 BTC extra" ≠ { amount := some "0.1", ccy := "BTC extra" } :=
  by decide

/-- C6 amended: with no space the whole string is the code and there is
no amount; with a space, the amount is the substring before the first
space and the code is the substring strictly between the first space
and the following space (or the end of the string). -/
theorem claim_C6_amended_split (s a b : String)
    (hs : ' ' ∉ s.data) (ha : ' ' ∉ a.data) :
    splitCcy s = { amount := none, ccy := s } ∧
    splitCcy (a ++ " " ++ b) =
      { amount := some a
        ccy := String.mk (b.data.takeWhile (fun c => c ≠ ' ')) } :=
  ⟨splitCcy_no_space s hs, splitCcy_append a b ha⟩

/-- Witness for the amended C6 at `"BTC"` and `"0.1" ++ " " ++ "ETH"`. -/
theorem claim_C6_witness :
    splitCcy "BTC" = { amount := none, ccy := "BTC" } ∧
    splitCcy ("0.1" ++ " " ++ "ETH") =
      { amount := some "0.1"
        ccy := String.mk ("ETH".data.takeWhile (fun c => c ≠ ' ')) } :=
  ⟨(claim_C6_amended_split "BTC" "0.1" "ETH" (by decide) (by decide)).1,
   (claim_C6_amended_split "BTC" "0.1" "ETH" (by decide) (by decide)).2⟩

/-- C7 counterexample: the claim says that when the from-side amount is
absent and the to-side amount is present, direction is `to` with the
to-side value.  The code additionally requires the to-side amount to be
non-empty: for a present but empty to-side amount it returns the empty
object instead. -/
theorem claim_C7_counterexample :
    calcAmtAndDir none (some "") = { amount := none, direction := none } ∧
    (calcAmtAndDir none (some "")).direction ≠ some "to" :=
  by decide

/-- C7 amended: direction `from` with the from-side value when the
from-side amount is present and non-empty; otherwise direction `to`
with the to-side value when the to-side amount is present and
non-empty; otherwise neither an amount nor a direction. -/
theorem claim_C7_amended_derivation (fa ta : Option String) :
    (truthyOpt fa = true →
      calcAmtAndDir fa ta = { amount := fa, direction := some "from" }) ∧
    (truthyOpt fa = false → truthyOpt ta = true →
      calcAmtAndDir fa ta = { amount := ta, direction := some "to" }) ∧
    (truthyOpt fa = false → truthyOpt ta = false →
      calcAmtAndDir fa ta = { amount := none, direction := none }) := by
  refine ⟨fun h => ?_, fun h1 h2 => ?_, fun h1 h2 => ?_⟩ <;>
    simp [calcAmtAndDir, *]

/-- Witness for the amended C7 at the three reachable shapes. -/
theorem claim_C7_witness :
    calcAmtAndDir (some "0.1") none =
      { amount := some "0.1", direction := some "from" } ∧
    calcAmtAndDir none (some "0.2") =
      { amount := some "0.2", direction := some "to" } ∧
    calcAmtAndDir none none = { amount := none, direction := none } :=
  ⟨(claim_C7_amended_derivation (some "0.1") none).1 (by decide),
   (claim_C7_amended_derivation none (some "0.2")).2.1 (by decide) (by decide),
   (claim_C7_amended_derivation none none).2.2 (by decide) (by decide)⟩

/-- C8: construction fails with the invalid-credentials error exactly
when the API key or the secret key is missing or empty, and succeeds
otherwise. -/
theorem claim_C8_credentials (apiKey secretKey : String)
    (aff : Option Affiliate) :
    (mkClient apiKey secretKey aff = .error .invalidCredentials ↔
      apiKey = "" ∨ secretKey = "") ∧
    (apiKey ≠ "" → secretKey ≠ "" →
      ∃ c, mkClient apiKey secretKey aff = .ok c) := by
  unfold mkClient
  constructor
  · constructor
    · intro h
      by_contra hcon
      rw [if_neg hcon] at h
      exact Except.noConfusion h
    · intro h
      rw [if_pos h]
  · intro h1 h2
    rw [if_neg (by tauto)]
    exact ⟨_, rfl⟩

/-- Witness for C8: an empty API key is rejected, full credentials are
accepted. -/
theorem claim_C8_witness :
    mkClient "" "some-secret" none = .error .invalidCredentials ∧
    (∃ c, mkClient "demo-api-key" "demo-secret-key" none = .ok c) :=
  ⟨(claim_C8_credentials "" "some-secret" none).1.mpr (Or.inl rfl),
   (claim_C8_credentials "demo-api-key" "demo-secret-key" none).2
      (by decide) (by decide)⟩

/-- C9: the computed signature is a pure function of the secret key and
the reduced request body: two computations over equal bodies with the
same key yield the same lowercase-hexadecimal HMAC-SHA256 digest.  (The
embedding of `crypto.createHmac` is the full HMAC-SHA256 construction
over the UTF-8 bytes of the signing base.) -/
theorem claim_C9_signature_deterministic (secretKey : String)
    (d1 d2 : Option (List (String × Option String))) (h : d1 = d2) :
    computeSignature secretKey d1 = computeSignature secretKey d2 := by
  rw [h]

/-- Witness for C9 at a concrete key and body. -/
theorem claim_C9_witness :
    computeSignature "demo-secret-key" (some [("type", some "float")]) =
      computeSignature "demo-secret-key" (some [("type", some "float")]) :=
  claim_C9_signature_deterministic "demo-secret-key"
    (some [("type", some "float")]) (some [("type", some "float")]) rfl

/-- C10 counterexample: the claim says that whenever both inputs
contain a space the request is built with direction `from` and the
from-side amount.  At `getPrice("0.1 ETH", "2 BTC")` — the claim's own
happy path — no validation error is raised, but the built body carries
no `direction` (and no `amount`) field at all: `_.omitBy` with the
identity predicate removes every truthy field, leaving only the unset
affiliate fields. -/
theorem claim_C10_counterexample :
    (' ' ∈ "0.1 ETH".data) ∧ (' ' ∈ "2 BTC".data) ∧
    getPriceBody demoClient "0.1 ETH" "2 BTC" "float" =
      .ok [("refcode", none), ("afftax", none)] ∧
    ([("refcode", none), ("afftax", none)] :
        List (String × Option String)).find? (fun kv => kv.1 = "direction") =
      none :=
  ⟨by decide, by decide, rfl, rfl⟩

/-- C10 amended: when both inputs contain a space and the from-side
amount (the substring before the first space) is non-empty, `getPrice`
and `createOrder` raise no local validation error, and `_calcAmtAndDir`
resolves direction `from` with the from-side amount, discarding the
to-side amount; however the `_.omitBy(..., _.identity)` reduction then
removes every truthy-valued field, so the body actually built contains
neither an `amount` nor a `direction` field and retains exactly the
falsy-valued fields. -/
theorem claim_C10_amended_both_amounts (c : Client) (f t ty ta : String)
    (tag : Option String) (hf : ' ' ∈ f.data) (ht : ' ' ∈ t.data)
    (hfa : truthyOpt (splitCcy f).amount = true) :
    calcAmtAndDir (splitCcy f).amount (splitCcy t).amount =
      { amount := (splitCcy f).amount, direction := some "from" } ∧
    (∃ b, getPriceBody c f t ty = .ok b ∧
       b.find? (fun kv => kv.1 = "direction") = none ∧
       b.find? (fun kv => kv.1 = "amount") = none ∧
       ∀ kv ∈ b, truthyOpt kv.2 = false) ∧
    (∃ b', createOrderBody c f t ta ty tag = .ok b' ∧
       b'.find? (fun kv => kv.1 = "direction") = none ∧
       b'.find? (fun kv => kv.1 = "amount") = none ∧
       ∀ kv ∈ b', truthyOpt kv.2 = false) := by
  have hguard := priceGuardFails_false_of_spaces f t hf ht
  have had : calcAmtAndDir (splitCcy f).amount (splitCcy t).amount =
      { amount := (splitCcy f).amount, direction := some "from" } := by
    simp [calcAmtAndDir, hfa]
  refine ⟨had, ?_, ?_⟩
  · have hbody : getPriceBody c f t ty = .ok (omitByIdentity
        [("type", some ty), ("fromCcy", some (splitCcy f).ccy),
         ("toCcy", some (splitCcy t).ccy),
         ("amount", (splitCcy f).amount), ("direction", some "from"),
         ("refcode", c.refcode), ("afftax", c.afftax)]) := by
      unfold getPriceBody
      simp only [hguard, Bool.false_eq_true, if_false, had]
    refine ⟨_, hbody, ?_, ?_, ?_⟩
    · rw [omitBy_find?_cons_skip _ _ _ _ (by decide),
          omitBy_find?_cons_skip _ _ _ _ (by decide),
          omitBy_find?_cons_skip _ _ _ _ (by decide),
          omitBy_find?_cons_skip _ _ _ _ (by decide),
          omitBy_cons_drop _ _ _ (by decide),
          omitBy_find?_cons_skip _ _ _ _ (by decide),
          omitBy_find?_cons_skip _ _ _ _ (by decide)]
      rfl
    · rw [omitBy_find?_cons_skip _ _ _ _ (by decide),
          omitBy_find?_cons_skip _ _ _ _ (by decide),
          omitBy_find?_cons_skip _ _ _ _ (by decide),
          omitBy_cons_drop _ _ _ hfa,
          omitBy_find?_cons_skip _ _ _ _ (by decide),
          omitBy_find?_cons_skip _ _ _ _ (by decide),
          omitBy_find?_cons_skip _ _ _ _ (by decide)]
      rfl
    · intro kv hkv
      simp only [omitByIdentity] at hkv
      simpa using List.of_mem_filter hkv
  · have hbody : createOrderBody c f t ta ty tag = .ok (omitByIdentity
        [("type", some ty), ("tag", tag),
         ("fromCcy", some (splitCcy f).ccy), ("toCcy", some (splitCcy t).ccy),
         ("amount", (splitCcy f).amount), ("direction", some "from"),
         ("refcode", c.refcode), ("afftax", c.afftax)]) := by
      unfold createOrderBody
      simp only [hguard, Bool.false_eq_true, if_false, had]
    refine ⟨_, hbody, ?_, ?_, ?_⟩
    · rw [omitBy_find?_cons_skip _ _ _ _ (by decide),
          omitBy_find?_cons_skip _ _ _ _ (by decide),
          omitBy_find?_cons_skip _ _ _ _ (by decide),
          omitBy_find?_cons_skip _ _ _ _ (by decide),
          omitBy_find?_cons_skip _ _ _ _ (by decide),
          omitBy_cons_drop _ _ _ (by decide),
          omitBy_find?_cons_skip _ _ _ _ (by decide),
          omitBy_find?_cons_skip _ _ _ _ (by decide)]
      rfl
    · rw [omitBy_find?_cons_skip _ _ _ _ (by decide),
          omitBy_find?_cons_skip _ _ _ _ (by decide),
          omitBy_find?_cons_skip _ _ _ _ (by decide),
          omitBy_find?_cons_skip _ _ _ _ (by decide),
          omitBy_cons_drop _ _ _ hfa,
          omitBy_find?_cons_skip _ _ _ _ (by decide),
          omitBy_find?_cons_skip _ _ _ _ (by decide),
          omitBy_find?_cons_skip _ _ _ _ (by decide)]
      rfl
    · intro kv hkv
      simp only [omitByIdentity] at hkv
      simpa using List.of_mem_filter hkv

/-- Witness for the amended C10 at `getPrice("0.1 ETH", "2 BTC")` and
the analogous `createOrder` call. -/
theorem claim_C10_witness :
    (' ' ∈ "0.1 ETH".data) ∧ (' ' ∈ "2 BTC".data) ∧
    (truthyOpt (splitCcy "0.1 ETH").amount = true) ∧
    calcAmtAndDir (splitCcy "0.1 ETH").amount (splitCcy "2 BTC").amount =
      { amount := (splitCcy "0.1 ETH").amount, direction := some "from" } ∧
    (∃ b, getPriceBody demoClient "0.1 ETH" "2 BTC" "float" = .ok b ∧
       b.find? (fun kv => kv.1 = "direction") = none ∧
       b.find? (fun kv => kv.1 = "amount") = none ∧
       ∀ kv ∈ b, truthyOpt kv.2 = false) ∧
    (∃ b', createOrderBody demoClient "0.1 ETH" "2 BTC" "destAddr" "float"
         none = .ok b' ∧
       b'.find? (fun kv => kv.1 = "direction") = none ∧
       b'.find? (fun kv => kv.1 = "amount") = none ∧
       ∀ kv ∈ b', truthyOpt kv.2 = false) :=
  ⟨by decide, by decide, by decide,
   (claim_C10_amended_both_amounts demoClient "0.1 ETH" "2 BTC" "float"
      "destAddr" none (by decide) (by decide) (by decide)).1,
   (claim_C10_amended_both_amounts demoClient "0.1 ETH" "2 BTC" "float"
      "destAddr" none (by decide) (by decide) (by decide)).2.1,
   (claim_C10_amended_both_amounts demoClient "0.1 ETH" "2 BTC" "float"
      "destAddr" none (by decide) (by decide) (by decide)).2.2⟩

end FF
